import Mathlib

/-!
Shallow embedding of the neetrino-calendar authorization and CRUD layer.

The definitions below are translated from the TypeScript sources:
  - `src/lib/errors.ts` (error classes and `createErrorResponse`)
  - `src/lib/auth.ts` (`getCurrentUser`, `isAdmin`, `requireAdmin`, `requireAuth`)
  - `src/lib/authorize.ts` (`checkCalendarPermission`, `getCalendarItemsFilter`,
    `getScheduleEntriesFilter`, `requireCalendarItemAccess`)
  - `src/app/api/schedule/route.ts` and `src/app/api/schedule/[id]/route.ts`
  - `src/app/api/calendar/items/route.ts`
  - `src/app/api/auth/login/route.ts`

The relational store is a record of lists; Prisma `findUnique`/`findFirst`
become `List.find?`, `findMany` with a `where` clause becomes `List.filter`
followed by a stable sort for `orderBy` and `List.take` for `take`.
Timestamps are naturals (milliseconds); `setHours(0,0,0,0)` becomes
truncation to a day boundary (the server clock is modelled in UTC).
Logging, rate-limiter internals (abstracted to a boolean gate), database
connectivity probes and JSON parsing are outside the modelled slice.
-/

namespace CalendarApp

/-- Access level of a `UserPermission` row: `NONE`, `VIEW` or `EDIT`. -/
inductive Level where
  | NONE
  | VIEW
  | EDIT
deriving DecidableEq, Repr

/-- Permission module: `"meetings"`, `"deadlines"` or `"schedule"`. -/
inductive PermModule where
  | meetings
  | deadlines
  | schedule
deriving DecidableEq, Repr

/-- User role: `"ADMIN"` or `"USER"`. -/
inductive Role where
  | ADMIN
  | USER
deriving DecidableEq, Repr

/-- Calendar item type: `"MEETING"` or `"DEADLINE"`. -/
inductive ItemType where
  | MEETING
  | DEADLINE
deriving DecidableEq, Repr

/-- A row of the `User` table (fields used by the handlers). -/
structure User where
  id : String
  name : String
  email : String
  passwordHash : String
  role : Role
deriving DecidableEq, Repr

/-- A row of the `UserPermission` table. -/
structure UserPermission where
  userId : String
  module : PermModule
  myLevel : Level
  allLevel : Level
deriving DecidableEq, Repr

/-- A row of the `CalendarItem` table. -/
structure CalendarItem where
  id : String
  itemType : ItemType
  title : String
  description : Option String
  startAt : Nat
  endAt : Option Nat
  allDay : Bool
  status : String
  location : Option String
  createdById : String
deriving DecidableEq, Repr

/-- A row of the `CalendarItemParticipant` table (its unique key). -/
structure Participant where
  itemId : String
  userId : String
  role : String
deriving DecidableEq, Repr

/-- A row of the `ScheduleEntry` table. -/
structure ScheduleEntry where
  id : String
  date : Nat
  startTime : Nat
  endTime : Nat
  note : Option String
  userId : String
  createdById : String
deriving DecidableEq, Repr

/-- The relational store. -/
structure DB where
  users : List User
  permissions : List UserPermission
  items : List CalendarItem
  participants : List Participant
  entries : List ScheduleEntry
deriving DecidableEq, Repr

/-- Milliseconds in a day. -/
def dayMs : Nat := 86400000

/-- `date.setHours(0,0,0,0)`: truncate a timestamp to its day boundary. -/
def normalizeDay (t : Nat) : Nat := t - t % dayMs

/-! ## `src/lib/errors.ts` -/

/-- A thrown JavaScript error: either an `AppError` subclass (carrying a
status code and a class name) or a plain `Error`. -/
inductive JsError where
  | appError (statusCode : Nat) (name : String) (message : String)
  | plainError (message : String)
deriving DecidableEq, Repr

/-- `new ValidationError(message)`: `AppError` with status 400. -/
def ValidationError (message : String) : JsError :=
  .appError 400 "ValidationError" message

/-- `new UnauthorizedError(message)`: `AppError` with status 401. -/
def UnauthorizedError (message : String) : JsError :=
  .appError 401 "UnauthorizedError" message

/-- `new ForbiddenError(message)`: `AppError` with status 403. -/
def ForbiddenError (message : String) : JsError :=
  .appError 403 "ForbiddenError" message

/-- `new NotFoundError(message)`: `AppError` with status 404. -/
def NotFoundError (message : String) : JsError :=
  .appError 404 "NotFoundError" message

/-- An HTTP JSON error/response envelope `{error, message}` plus status. -/
structure Response where
  status : Nat
  error : String
  message : String
deriving DecidableEq, Repr

/-- `createErrorResponse` from `src/lib/errors.ts`, in production mode
(`NODE_ENV` is not `development`): an `AppError` keeps its own status code,
name and message; any other thrown value becomes a generic 500. -/
def createErrorResponse : JsError → Response
  | .appError statusCode name message =>
      { status := statusCode, error := name, message := message }
  | .plainError _ =>
      { status := 500, error := "InternalServerError",
        message := "An unexpected error occurred. Please try again later." }

/-- The 429 response every handler returns when the rate-limit check fails. -/
def rateLimitResponse : Response :=
  { status := 429, error := "Too Many Requests",
    message := "Rate limit exceeded. Please try again later." }

/-! ## `src/lib/auth.ts` -/

/-- `getCurrentUser`: resolve the `calendar_auth_user_id` cookie to a user
row; `none` when the cookie is absent or no user has that id. -/
def getCurrentUser (db : DB) (cookie : Option String) : Option User :=
  match cookie with
  | none => none
  | some userId => db.users.find? (fun u => u.id == userId)

/-- `isAdmin`. -/
def isAdmin : Option User → Bool
  | some u => u.role == Role.ADMIN
  | none => false

/-- `requireAdmin`: throws a plain `Error` (not an `AppError`) when the
requester is unauthenticated or not an admin. -/
def requireAdmin (db : DB) (cookie : Option String) : Except JsError User :=
  match getCurrentUser db cookie with
  | none => .error (.plainError "Unauthorized: No user found")
  | some u =>
      if isAdmin (some u) then .ok u
      else .error (.plainError "Forbidden: Admin access required")

/-- `requireAuth`: throws a plain `Error` when unauthenticated. -/
def requireAuth (db : DB) (cookie : Option String) : Except JsError User :=
  match getCurrentUser db cookie with
  | none => .error (.plainError "Unauthorized: No user found")
  | some u => .ok u

/-! ## `src/lib/authorize.ts` -/

/-- `db.userPermission.findUnique({where: {userId_module: {userId, module}}})`. -/
def findPermission (db : DB) (userId : String) (m : PermModule) :
    Option UserPermission :=
  db.permissions.find? (fun p => p.userId == userId && p.module == m)

/-- `checkCalendarPermission`: own items always pass; otherwise consult the
`"meetings"` permission row and compare `allLevel` with the required level. -/
def checkCalendarPermission (db : DB) (user : User) (itemCreatedById : String)
    (requiredLevel : Level) : Bool :=
  if user.id == itemCreatedById then true
  else
    match findPermission db user.id PermModule.meetings with
    | none => false
    | some permission =>
        if requiredLevel == Level.VIEW && permission.allLevel == Level.VIEW then true
        else if requiredLevel == Level.VIEW && permission.allLevel == Level.EDIT then true
        else if requiredLevel == Level.EDIT && permission.allLevel == Level.EDIT then true
        else false

/-- `isCalendarItemParticipant`: unique lookup on `(itemId, userId)`. -/
def isCalendarItemParticipant (db : DB) (userId itemId : String) : Bool :=
  (db.participants.find? (fun p => p.itemId == itemId && p.userId == userId)).isSome

/-- `requireCalendarItemAccess`: 404 when the item is absent; owner passes;
a participant passes for `VIEW`; otherwise `checkCalendarPermission`. -/
def requireCalendarItemAccess (db : DB) (user : User) (itemId : String)
    (requiredLevel : Level) : Except JsError Unit :=
  match db.items.find? (fun it => it.id == itemId) with
  | none => .error (NotFoundError "Calendar item not found")
  | some item =>
      if user.id == item.createdById then .ok ()
      else if requiredLevel == Level.VIEW && isCalendarItemParticipant db user.id itemId then
        .ok ()
      else if checkCalendarPermission db user item.createdById requiredLevel then .ok ()
      else .error (ForbiddenError "You do not have permission to access this calendar item")

/-- The Prisma `where` clause returned by `getCalendarItemsFilter`: either the
empty object (no restriction) or
`{OR: [{createdById: uid}, {participants: {some: {userId: uid}}}]}`. -/
inductive CalendarItemsFilter where
  | empty
  | orOwnerOrParticipant (userId : String)
deriving DecidableEq, Repr

/-- The Prisma `where` clause returned by `getScheduleEntriesFilter`: either
the empty object or `{OR: [{userId: uid}]}`. -/
inductive ScheduleEntriesFilter where
  | empty
  | orUser (userId : String)
deriving DecidableEq, Repr

/-- `getCalendarItemsFilter`: unrestricted when the `"meetings"` permission
row has `allLevel` `VIEW` or `EDIT`; otherwise owner-or-participant. -/
def getCalendarItemsFilter (db : DB) (user : User) : CalendarItemsFilter :=
  match findPermission db user.id PermModule.meetings with
  | some permission =>
      if permission.allLevel == Level.VIEW || permission.allLevel == Level.EDIT then
        CalendarItemsFilter.empty
      else CalendarItemsFilter.orOwnerOrParticipant user.id
  | none => CalendarItemsFilter.orOwnerOrParticipant user.id

/-- `getScheduleEntriesFilter`: unrestricted when the `"schedule"` permission
row has `allLevel` `VIEW` or `EDIT`; otherwise `{OR: [{userId: user.id}]}`. -/
def getScheduleEntriesFilter (db : DB) (user : User) : ScheduleEntriesFilter :=
  match findPermission db user.id PermModule.schedule with
  | some permission =>
      if permission.allLevel == Level.VIEW || permission.allLevel == Level.EDIT then
        ScheduleEntriesFilter.empty
      else ScheduleEntriesFilter.orUser user.id
  | none => ScheduleEntriesFilter.orUser user.id

/-- Prisma semantics of the calendar items `where` clause on one row. -/
def calFilterMatches (db : DB) (f : CalendarItemsFilter) (item : CalendarItem) : Bool :=
  match f with
  | .empty => true
  | .orOwnerOrParticipant uid =>
      item.createdById == uid || isCalendarItemParticipant db uid item.id

/-- Prisma semantics of the schedule entries `where` clause on one row. -/
def schedFilterMatches (f : ScheduleEntriesFilter) (e : ScheduleEntry) : Bool :=
  match f with
  | .empty => true
  | .orUser uid => e.userId == uid

/-! ## Handler plumbing -/

/-- Outcome of a route handler: a JSON success body with its status, or an
error `Response` (429, or whatever `createErrorResponse` produced). -/
inductive ApiResponse (α : Type) where
  | success (status : Nat) (val : α)
  | failure (resp : Response)
deriving DecidableEq, Repr

/-- HTTP status of a handler outcome. -/
def ApiResponse.statusOf {α : Type} : ApiResponse α → Nat
  | .success s _ => s
  | .failure r => r.status

/-- Payload of a list response (`[]` on error). -/
def ApiResponse.rows {α : Type} : ApiResponse (List α) → List α
  | .success _ v => v
  | .failure _ => []

/-- Stable insertion into a `le`-sorted list: the new element goes before the
first element it compares `le` to, so equal keys keep their original order. -/
def insertLe {α : Type} (le : α → α → Bool) (x : α) : List α → List α
  | [] => [x]
  | y :: ys => if le x y then x :: y :: ys else y :: insertLe le x ys

/-- Stable sort modelling Prisma `orderBy`: rows tied on every sort key stay
in the order the store returned them. -/
def sortLe {α : Type} (le : α → α → Bool) : List α → List α
  | [] => []
  | x :: xs => insertLe le x (sortLe le xs)

/-! ## `src/app/api/schedule/route.ts` and `src/app/api/schedule/[id]/route.ts` -/

/-- Raw JSON body of `POST /api/schedule` after JSON parsing. `createdById`
stands for a client-supplied extra field targeted at mass assignment. -/
structure SchedCreateBody where
  date : Nat
  userId : String
  startTime : Nat
  endTime : Nat
  note : Option String
  createdById : Option String
deriving DecidableEq, Repr

/-- The fields of `CreateScheduleEntrySchema.parse`: no `createdById`. -/
structure SchedCreateData where
  date : Nat
  userId : String
  startTime : Nat
  endTime : Nat
  note : Option String
deriving DecidableEq, Repr

/-- Modelled from the spec: `CreateScheduleEntrySchema`
(`src/lib/validations/schedule.ts` is not among the provided sources).
Per the spec, creation must fail when `endTime <= startTime`, `date` is at
day granularity, and the strict schema drops the server-controlled
`createdById` field. -/
def CreateScheduleEntrySchema (b : SchedCreateBody) : Option SchedCreateData :=
  if b.startTime < b.endTime && b.date % dayMs == 0 then
    some { date := b.date, userId := b.userId, startTime := b.startTime,
           endTime := b.endTime, note := b.note }
  else none

/-- Raw/validated body of `PATCH /api/schedule/:id`: every field optional. -/
structure SchedUpdateBody where
  date : Option Nat
  userId : Option String
  startTime : Option Nat
  endTime : Option Nat
  note : Option String
deriving DecidableEq, Repr

/-- Modelled from the spec: `UpdateScheduleEntrySchema`
(`src/lib/validations/schedule.ts` is not among the provided sources).
A partial payload of the create fields; a provided `date` is at day
granularity; no `createdById` field exists, so it cannot be changed. -/
def UpdateScheduleEntrySchema (b : SchedUpdateBody) : Option SchedUpdateBody :=
  if (match b.date with | some d => d % dayMs == 0 | none => true) then some b
  else none

/-- `POST /api/schedule`. Steps (in source order): rate limit, `requireAdmin`,
validate body, normalize the date, pre-check the `(date, userId)` day window
for an existing entry, then create with `createdById` forced to the
authenticated user. `newId` stands for the Prisma-generated cuid. -/
def schedulePOST (db : DB) (cookie : Option String) (rateOk : Bool)
    (body : SchedCreateBody) (newId : String) : ApiResponse ScheduleEntry × DB :=
  if !rateOk then (.failure rateLimitResponse, db)
  else
    match requireAdmin db cookie with
    | .error e => (.failure (createErrorResponse e), db)
    | .ok user =>
        match CreateScheduleEntrySchema body with
        | none => (.failure (createErrorResponse (ValidationError "Invalid request body")), db)
        | some d =>
            let entryDate := normalizeDay d.date
            let startOfDay := entryDate
            let endOfDay := entryDate + dayMs
            match db.entries.find? (fun e =>
                e.userId == d.userId && decide (startOfDay ≤ e.date)
                  && decide (e.date < endOfDay)) with
            | some _ =>
                (.failure (createErrorResponse
                  (ValidationError "Schedule entry already exists for this user on this date")), db)
            | none =>
                let entry : ScheduleEntry :=
                  { id := newId, date := entryDate, startTime := d.startTime,
                    endTime := d.endTime, note := d.note, userId := d.userId,
                    createdById := user.id }
                (.success 201 entry, { db with entries := db.entries ++ [entry] })

/-- `PATCH /api/schedule/:id`. Steps (in source order): rate limit,
`requireAdmin`, load the row (a plain `Error` when absent), validate the
body, re-check `(date, userId)` uniqueness excluding this row when either
field is supplied, check `endTime > startTime` on the merged values, then
persist the merged row; `createdById` is not among the update fields. -/
def schedulePATCH (db : DB) (cookie : Option String) (rateOk : Bool)
    (id : String) (body : SchedUpdateBody) : ApiResponse ScheduleEntry × DB :=
  if !rateOk then (.failure rateLimitResponse, db)
  else
    match requireAdmin db cookie with
    | .error e => (.failure (createErrorResponse e), db)
    | .ok _ =>
        match db.entries.find? (fun e => e.id == id) with
        | none => (.failure (createErrorResponse (.plainError "Schedule entry not found")), db)
        | some existingEntry =>
            match UpdateScheduleEntrySchema body with
            | none => (.failure (createErrorResponse (ValidationError "Invalid request body")), db)
            | some d =>
                let newDate := normalizeDay (d.date.getD existingEntry.date)
                let newUserId := d.userId.getD existingEntry.userId
                let conflict :=
                  if d.date.isSome || d.userId.isSome then
                    db.entries.find? (fun e =>
                      e.id != id && e.userId == newUserId
                        && decide (newDate ≤ e.date) && decide (e.date < newDate + dayMs))
                  else none
                match conflict with
                | some _ =>
                    (.failure (createErrorResponse
                      (ValidationError "Schedule entry already exists for this user on this date")), db)
                | none =>
                    let finalStartTime := d.startTime.getD existingEntry.startTime
                    let finalEndTime := d.endTime.getD existingEntry.endTime
                    if finalEndTime ≤ finalStartTime then
                      (.failure (createErrorResponse
                        (ValidationError "End time must be after start time")), db)
                    else
                      let updated : ScheduleEntry :=
                        { existingEntry with
                          date := d.date.getD existingEntry.date,
                          userId := newUserId,
                          startTime := finalStartTime,
                          endTime := finalEndTime,
                          note := match d.note with
                                  | some n => some n
                                  | none => existingEntry.note }
                      (.success 200 updated,
                       { db with entries :=
                          db.entries.map (fun e => if e.id == id then updated else e) })

/-- `DELETE /api/schedule/:id`: rate limit, `requireAdmin`, load the row
(a plain `Error` when absent), then delete it. -/
def scheduleDELETE (db : DB) (cookie : Option String) (rateOk : Bool)
    (id : String) : ApiResponse Unit × DB :=
  if !rateOk then (.failure rateLimitResponse, db)
  else
    match requireAdmin db cookie with
    | .error e => (.failure (createErrorResponse e), db)
    | .ok _ =>
        match db.entries.find? (fun e => e.id == id) with
        | none => (.failure (createErrorResponse (.plainError "Schedule entry not found")), db)
        | some _ =>
            (.success 200 (),
             { db with entries := db.entries.filter (fun e => e.id != id) })

/-- Name of the user a schedule entry belongs to (the `user` relation joined
by the schedule list query; `""` for a dangling reference). -/
def joinedUserName (db : DB) (e : ScheduleEntry) : String :=
  ((db.users.find? (fun u => u.id == e.userId)).map (fun u => u.name)).getD ""

/-- The `orderBy: [{startTime: "asc"}, {user: {name: "asc"}}]` comparison of
the schedule list query. -/
def schedLe (db : DB) (a b : ScheduleEntry) : Bool :=
  decide (a.startTime < b.startTime)
    || (decide (a.startTime = b.startTime)
        && decide (joinedUserName db a ≤ joinedUserName db b))

/-- `GET /api/schedule?date=...`: rate limit, `requireAuth`, authorization
filter, day window on `date`, `take: 1000`, ordered by `startTime` then the
user name. The date parameter is the parsed timestamp. -/
def scheduleGET (db : DB) (cookie : Option String) (rateOk : Bool)
    (dateParam : Nat) : ApiResponse (List ScheduleEntry) :=
  if !rateOk then .failure rateLimitResponse
  else
    match requireAuth db cookie with
    | .error e => .failure (createErrorResponse e)
    | .ok user =>
        let queryDate := normalizeDay dateParam
        let startOfDay := queryDate
        let endOfDay := queryDate + dayMs
        let authFilter := getScheduleEntriesFilter db user
        let rows := db.entries.filter (fun e =>
          schedFilterMatches authFilter e && decide (startOfDay ≤ e.date)
            && decide (e.date < endOfDay))
        .success 200 ((sortLe (schedLe db) rows).take 1000)

/-! ## `src/app/api/calendar/items/route.ts` -/

/-- Leading-segment test on character lists. -/
def charsLead : List Char → List Char → Bool
  | [], _ => true
  | _ :: _, [] => false
  | a :: as, b :: bs => a == b && charsLead as bs

/-- Substring test on character lists. -/
def charsContain : List Char → List Char → Bool
  | [], needle => needle.isEmpty
  | h :: t, needle => charsLead needle (h :: t) || charsContain t needle

/-- Prisma `title: {contains: search, mode: "insensitive"}`. -/
def titleContains (title search : String) : Bool :=
  charsContain title.toLower.data search.toLower.data

/-- Validated query of `GET /api/calendar/items` (the fields the route reads
from `searchParams`: `from`, `to`, `type`, `status`, `search`; there is no
`limit` parameter). `fromTs`/`toTs` are the parsed date bounds. -/
structure CalQuery where
  fromTs : Option Nat
  toTs : Option Nat
  itemType : Option ItemType
  status : Option String
  search : Option String
deriving DecidableEq, Repr

/-- The `orderBy: {startAt: "asc"}` comparison of the calendar items list
query: `startAt` is the only sort key. -/
def calLe (a b : CalendarItem) : Bool :=
  decide (a.startAt ≤ b.startAt)

/-- The `where` clause of the calendar items list on one row: authorization
filter plus the optional `startAt` range, `type`, `status` and title search. -/
def calWhereMatches (db : DB) (authFilter : CalendarItemsFilter) (q : CalQuery)
    (it : CalendarItem) : Bool :=
  calFilterMatches db authFilter it
    && (match q.fromTs with | some f => decide (f ≤ it.startAt) | none => true)
    && (match q.toTs with | some t => decide (it.startAt ≤ t) | none => true)
    && (match q.itemType with | some ty => it.itemType == ty | none => true)
    && (match q.status with | some st => it.status == st | none => true)
    && (match q.search with | some s => titleContains it.title s | none => true)

/-- `GET /api/calendar/items`: rate limit, `requireAuth`, authorization
filter, query filters, `take: 1000`, ordered by `startAt` ascending only. -/
def calendarItemsGET (db : DB) (cookie : Option String) (rateOk : Bool)
    (q : CalQuery) : ApiResponse (List CalendarItem) :=
  if !rateOk then .failure rateLimitResponse
  else
    match requireAuth db cookie with
    | .error e => .failure (createErrorResponse e)
    | .ok user =>
        let authFilter := getCalendarItemsFilter db user
        let rows := db.items.filter (calWhereMatches db authFilter q)
        .success 200 ((sortLe calLe rows).take 1000)

/-- A participant element of the create payload. -/
structure ParticipantInput where
  userId : String
  role : String
deriving DecidableEq, Repr

/-- Raw JSON body of `POST /api/calendar/items`. `createdById` stands for a
client-supplied extra field targeted at mass assignment. -/
structure CalCreateBody where
  itemType : ItemType
  title : String
  description : Option String
  startAt : Nat
  endAt : Option Nat
  allDay : Bool
  status : String
  location : Option String
  participants : Option (List ParticipantInput)
  createdById : Option String
deriving DecidableEq, Repr

/-- The fields of `CreateCalendarItemSchema.parse`: no `createdById`. -/
structure CalCreateData where
  itemType : ItemType
  title : String
  description : Option String
  startAt : Nat
  endAt : Option Nat
  allDay : Bool
  status : String
  location : Option String
  participants : Option (List ParticipantInput)
deriving DecidableEq, Repr

/-- Modelled from the spec: `CreateCalendarItemSchema`
(`src/lib/validations/calendar.ts` is not among the provided sources).
A strict schema over the item fields and participants; the
server-controlled `createdById` is not among its fields, so it is dropped
from the payload. The route additionally overwrites `createdById` after
spreading the validated data, which is visible in the provided source. -/
def CreateCalendarItemSchema (b : CalCreateBody) : Option CalCreateData :=
  some { itemType := b.itemType, title := b.title, description := b.description,
         startAt := b.startAt, endAt := b.endAt, allDay := b.allDay,
         status := b.status, location := b.location, participants := b.participants }

/-- `POST /api/calendar/items`: rate limit, `requireAdmin`, validate, create
the item with `createdById: user.id` (written after the spread of the
validated data, so any client value is overwritten) and its participant
rows. `newId` stands for the Prisma-generated cuid. -/
def calendarItemsPOST (db : DB) (cookie : Option String) (rateOk : Bool)
    (body : CalCreateBody) (newId : String) : ApiResponse CalendarItem × DB :=
  if !rateOk then (.failure rateLimitResponse, db)
  else
    match requireAdmin db cookie with
    | .error e => (.failure (createErrorResponse e), db)
    | .ok user =>
        match CreateCalendarItemSchema body with
        | none => (.failure (createErrorResponse (ValidationError "Invalid request body")), db)
        | some d =>
            let item : CalendarItem :=
              { id := newId, itemType := d.itemType, title := d.title,
                description := d.description, startAt := d.startAt,
                endAt := d.endAt, allDay := d.allDay, status := d.status,
                location := d.location, createdById := user.id }
            let newParts :=
              match d.participants with
              | some ps => ps.map (fun p =>
                  { itemId := newId, userId := p.userId, role := p.role : Participant })
              | none => []
            (.success 201 item,
             { db with items := db.items ++ [item],
                       participants := db.participants ++ newParts })

/-- Partial-update payload for a calendar item. -/
structure CalUpdateBody where
  itemType : Option ItemType
  title : Option String
  description : Option String
  startAt : Option Nat
  endAt : Option Nat
  allDay : Option Bool
  status : Option String
  location : Option String
deriving DecidableEq, Repr

/-- Modelled from the spec: the calendar item update handler
(`PATCH /api/calendar/items/:id` and its validation schema are not among the
provided sources). Per the spec (section 4.2): require admin (the provided
`requireAdmin` is the repository function the route would call), load the
existing row, validate the partial payload, merge and persist; the owner
field (`createdById`) is never writable. -/
def calendarItemPATCH (db : DB) (cookie : Option String) (rateOk : Bool)
    (id : String) (body : CalUpdateBody) : ApiResponse CalendarItem × DB :=
  if !rateOk then (.failure rateLimitResponse, db)
  else
    match requireAdmin db cookie with
    | .error e => (.failure (createErrorResponse e), db)
    | .ok _ =>
        match db.items.find? (fun it => it.id == id) with
        | none => (.failure (createErrorResponse (NotFoundError "Calendar item not found")), db)
        | some existingItem =>
            let updated : CalendarItem :=
              { existingItem with
                itemType := body.itemType.getD existingItem.itemType,
                title := body.title.getD existingItem.title,
                description := match body.description with
                               | some v => some v
                               | none => existingItem.description,
                startAt := body.startAt.getD existingItem.startAt,
                endAt := match body.endAt with
                         | some v => some v
                         | none => existingItem.endAt,
                allDay := body.allDay.getD existingItem.allDay,
                status := body.status.getD existingItem.status,
                location := match body.location with
                            | some v => some v
                            | none => existingItem.location }
            (.success 200 updated,
             { db with items := db.items.map (fun it => if it.id == id then updated else it) })

/-! ## `src/app/api/auth/login/route.ts` -/

/-- Public projection of a user, as returned by a successful login. -/
structure UserPublic where
  id : String
  name : String
  email : String
  role : Role
deriving DecidableEq, Repr

/-- Body of the login response: the generic failure envelope or the user. -/
inductive LoginResponse where
  | failure (resp : Response)
  | success (user : UserPublic)
deriving DecidableEq, Repr

/-- Observable outcome of the login handler core: the response, whether
`verifyPassword` was invoked, and the hash selected for comparison. -/
structure LoginOut where
  response : LoginResponse
  verifyCalled : Bool
  hashCompared : String
deriving DecidableEq, Repr

/-- The fixed dummy bcrypt hash of the login route. -/
def loginDummyHash : String :=
  "$2a$12$LQv3c1yqBWVHxkd0LHAkCOYz6TtxMQJqhN8/LewY5GyYqJqZ5q5Xe"

/-- The generic failure response of the login route: status 200 with
`{error: "Invalid credentials", message: "Email or password is incorrect"}`,
issued both when no user has the email and when the password is wrong. -/
def loginFailureResponse : Response :=
  { status := 200, error := "Invalid credentials",
    message := "Email or password is incorrect" }

/-- The core of `POST /api/auth/login`, from the user lookup onward (rate
limiting, connectivity probes and body parsing are upstream and modelled
away). `verifyPassword` is the oracle `hashCheck`. Faithful to the source:
`passwordHash` falls back to the dummy hash, but the comparison itself is
guarded by `user ? ... : false`, so it only runs when the user exists. -/
def loginPOST (db : DB) (email password : String)
    (hashCheck : String → String → Bool) : LoginOut :=
  let user := db.users.find? (fun u => u.email == email)
  let passwordHash := (user.map (fun u => u.passwordHash)).getD loginDummyHash
  let passwordValid :=
    match user with
    | some _ => hashCheck password passwordHash
    | none => false
  match user with
  | none =>
      { response := .failure loginFailureResponse, verifyCalled := false,
        hashCompared := passwordHash }
  | some u =>
      if passwordValid then
        { response := .success { id := u.id, name := u.name, email := u.email, role := u.role },
          verifyCalled := true, hashCompared := passwordHash }
      else
        { response := .failure loginFailureResponse, verifyCalled := true,
          hashCompared := passwordHash }

/-- The 200ms latency floor of the login route. -/
def loginMinResponseTime : Nat := 200

/-- The artificial delay the login route adds after `elapsed` milliseconds of
work: `setTimeout(minResponseTime - elapsed)` when under the floor. -/
def loginDelay (elapsed : Nat) : Nat :=
  if elapsed < loginMinResponseTime then loginMinResponseTime - elapsed else 0

/-- Total handler latency after padding. -/
def loginTotalElapsed (elapsed : Nat) : Nat :=
  elapsed + loginDelay elapsed

/-! ## Invariants of the schedule store -/

/-- Row ids are pairwise distinct (`ScheduleEntry.id` is the primary key). -/
def entryIdsNodup (l : List ScheduleEntry) : Prop :=
  (l.map (fun e => e.id)).Nodup

/-- At most one schedule entry per `(date, userId)` pair at day granularity:
any two rows of the same user on the same day are the same row. -/
def entriesUnique (l : List ScheduleEntry) : Prop :=
  ∀ e1 ∈ l, ∀ e2 ∈ l, e1.userId = e2.userId →
    normalizeDay e1.date = normalizeDay e2.date → e1 = e2

/-- Well-formedness of the schedule table. -/
def entriesWF (l : List ScheduleEntry) : Prop :=
  entryIdsNodup l ∧ entriesUnique l

/-- Every stored schedule entry has `startTime < endTime`. -/
def entriesTimesOk (l : List ScheduleEntry) : Prop :=
  ∀ e ∈ l, e.startTime < e.endTime

/-- Membership in the day window `[nd, nd + dayMs)` of an aligned `nd` is
exactly equality of day boundaries. -/
theorem window_iff (t nd : Nat) (h : nd % dayMs = 0) :
    (nd ≤ t ∧ t < nd + dayMs) ↔ normalizeDay t = nd := by
  unfold normalizeDay dayMs at *
  omega

/-- `normalizeDay` lands on a day boundary. -/
theorem normalizeDay_mod (t : Nat) : normalizeDay t % dayMs = 0 := by
  unfold normalizeDay dayMs
  omega

/-- `normalizeDay` is the identity on day boundaries. -/
theorem normalizeDay_aligned (t : Nat) (h : t % dayMs = 0) : normalizeDay t = t := by
  unfold normalizeDay dayMs at *
  omega

/-! ## Sorting lemmas -/

/-- Elements of `insertLe` are the inserted element or the old elements. -/
theorem mem_insertLe {α : Type} (le : α → α → Bool) (x a : α) (l : List α) :
    a ∈ insertLe le x l ↔ a = x ∨ a ∈ l := by
  induction l with
  | nil => simp [insertLe]
  | cons y ys ih =>
      by_cases h : le x y = true
      · simp only [insertLe]
        rw [if_pos h]
        simp only [List.mem_cons]
      · simp only [insertLe]
        rw [if_neg h]
        simp only [List.mem_cons, ih]
        tauto

/-- `insertLe` keeps a list sorted when `le` is total and transitive. -/
theorem pairwise_insertLe {α : Type} (le : α → α → Bool)
    (htot : ∀ a b, le a b = true ∨ le b a = true)
    (htrans : ∀ a b c, le a b = true → le b c = true → le a c = true)
    (x : α) : ∀ (l : List α), l.Pairwise (fun a b => le a b = true) →
    (insertLe le x l).Pairwise (fun a b => le a b = true) := by
  intro l
  induction l with
  | nil =>
      intro _
      simp [insertLe]
  | cons y ys ih =>
      intro hl
      rcases List.pairwise_cons.mp hl with ⟨hy, hys⟩
      by_cases h : le x y = true
      · simp only [insertLe]
        rw [if_pos h]
        refine List.pairwise_cons.mpr ⟨?_, hl⟩
        intro z hz
        rcases List.mem_cons.mp hz with hzy | hz'
        · exact hzy ▸ h
        · exact htrans _ _ _ h (hy z hz')
      · simp only [insertLe]
        rw [if_neg h]
        refine List.pairwise_cons.mpr ⟨?_, ih hys⟩
        intro z hz
        rcases (mem_insertLe le x z ys).mp hz with hzx | hz'
        · rw [hzx]
          rcases htot x y with h1 | h1
          · exact absurd h1 h
          · exact h1
        · exact hy z hz'

/-- `sortLe` sorts when `le` is total and transitive. -/
theorem pairwise_sortLe {α : Type} (le : α → α → Bool)
    (htot : ∀ a b, le a b = true ∨ le b a = true)
    (htrans : ∀ a b c, le a b = true → le b c = true → le a c = true)
    (l : List α) : (sortLe le l).Pairwise (fun a b => le a b = true) := by
  induction l with
  | nil => simp [sortLe]
  | cons x xs ih => exact pairwise_insertLe le htot htrans x _ ih

/-- `calLe` is total. -/
theorem calLe_total (a b : CalendarItem) : calLe a b = true ∨ calLe b a = true := by
  simp only [calLe, decide_eq_true_eq]
  exact Nat.le_total a.startAt b.startAt

/-- `calLe` is transitive. -/
theorem calLe_trans (a b c : CalendarItem) :
    calLe a b = true → calLe b c = true → calLe a c = true := by
  simp only [calLe, decide_eq_true_eq]
  exact Nat.le_trans

/-- `schedLe` is total. -/
theorem schedLe_total (db : DB) (a b : ScheduleEntry) :
    schedLe db a b = true ∨ schedLe db b a = true := by
  simp only [schedLe, Bool.or_eq_true, Bool.and_eq_true, decide_eq_true_eq]
  rcases Nat.lt_trichotomy a.startTime b.startTime with h | h | h
  · exact Or.inl (Or.inl h)
  · rcases le_total (joinedUserName db a) (joinedUserName db b) with h2 | h2
    · exact Or.inl (Or.inr ⟨h, h2⟩)
    · exact Or.inr (Or.inr ⟨h.symm, h2⟩)
  · exact Or.inr (Or.inl h)

/-- `schedLe` is transitive. -/
theorem schedLe_trans (db : DB) (a b c : ScheduleEntry) :
    schedLe db a b = true → schedLe db b c = true → schedLe db a c = true := by
  simp only [schedLe, Bool.or_eq_true, Bool.and_eq_true, decide_eq_true_eq]
  rintro (h1 | ⟨h1, h1n⟩) (h2 | ⟨h2, h2n⟩)
  · exact Or.inl (Nat.lt_trans h1 h2)
  · exact Or.inl (h2 ▸ h1)
  · exact Or.inl (h1 ▸ h2)
  · exact Or.inr ⟨h1.trans h2, le_trans h1n h2n⟩

/-! ## Claim theorems -/

/-- A permission row for `(userId, m)` exists with `allLevel` in
`{VIEW, EDIT}` (the unrestricted-scope condition of the spec). -/
def hasAllViewOrEdit (db : DB) (userId : String) (m : PermModule) : Bool :=
  match findPermission db userId m with
  | some p => p.allLevel == Level.VIEW || p.allLevel == Level.EDIT
  | none => false

/-- C1 (amended): the list-scope filter is unrestricted exactly when a
permission row for the module exists with `allLevel` `VIEW` or `EDIT`
(module `"meetings"` for calendar items, `"schedule"` for schedule entries);
otherwise the calendar filter admits exactly the rows the user created or
participates in, while the schedule filter admits exactly the rows whose
`userId` (the user whose shift it is) equals the requester — not the rows
the requester created. -/
theorem list_scope_filter_characterization (db : DB) (u : User)
    (it : CalendarItem) (e : ScheduleEntry) :
    ((getCalendarItemsFilter db u = CalendarItemsFilter.empty)
        ↔ hasAllViewOrEdit db u.id PermModule.meetings = true)
  ∧ ((getScheduleEntriesFilter db u = ScheduleEntriesFilter.empty)
        ↔ hasAllViewOrEdit db u.id PermModule.schedule = true)
  ∧ (calFilterMatches db (getCalendarItemsFilter db u) it
        = (hasAllViewOrEdit db u.id PermModule.meetings
            || it.createdById == u.id || isCalendarItemParticipant db u.id it.id))
  ∧ (schedFilterMatches (getScheduleEntriesFilter db u) e
        = (hasAllViewOrEdit db u.id PermModule.schedule || e.userId == u.id)) := by
  refine ⟨?_, ?_, ?_, ?_⟩
  · cases hp : findPermission db u.id PermModule.meetings with
    | none => simp [getCalendarItemsFilter, hasAllViewOrEdit, hp]
    | some p =>
        by_cases hl : (p.allLevel == Level.VIEW || p.allLevel == Level.EDIT) = true
        · simp [getCalendarItemsFilter, hasAllViewOrEdit, hp, hl]
        · simp [getCalendarItemsFilter, hasAllViewOrEdit, hp,
                Bool.not_eq_true _ ▸ hl]
  · cases hp : findPermission db u.id PermModule.schedule with
    | none => simp [getScheduleEntriesFilter, hasAllViewOrEdit, hp]
    | some p =>
        by_cases hl : (p.allLevel == Level.VIEW || p.allLevel == Level.EDIT) = true
        · simp [getScheduleEntriesFilter, hasAllViewOrEdit, hp, hl]
        · simp [getScheduleEntriesFilter, hasAllViewOrEdit, hp,
                Bool.not_eq_true _ ▸ hl]
  · cases hp : findPermission db u.id PermModule.meetings with
    | none => simp [getCalendarItemsFilter, hasAllViewOrEdit, hp, calFilterMatches]
    | some p =>
        by_cases hl : (p.allLevel == Level.VIEW || p.allLevel == Level.EDIT) = true
        · simp [getCalendarItemsFilter, hasAllViewOrEdit, hp, hl, calFilterMatches]
        · simp [getCalendarItemsFilter, hasAllViewOrEdit, hp,
                Bool.not_eq_true _ ▸ hl, calFilterMatches]
  · cases hp : findPermission db u.id PermModule.schedule with
    | none => simp [getScheduleEntriesFilter, hasAllViewOrEdit, hp, schedFilterMatches]
    | some p =>
        by_cases hl : (p.allLevel == Level.VIEW || p.allLevel == Level.EDIT) = true
        · simp [getScheduleEntriesFilter, hasAllViewOrEdit, hp, hl, schedFilterMatches]
        · simp [getScheduleEntriesFilter, hasAllViewOrEdit, hp,
                Bool.not_eq_true _ ▸ hl, schedFilterMatches]

/-- A user with no permission rows, for the C1 counterexample. -/
def c1User : User :=
  { id := "u1", name := "UserOne", email := "u1@example.com",
    passwordHash := "hash1", role := Role.USER }

/-- A schedule entry created by `u1` for the shift of another user `u2`. -/
def c1Entry : ScheduleEntry :=
  { id := "e1", date := 0, startTime := 60, endTime := 120, note := none,
    userId := "u2", createdById := "u1" }

/-- Store for the C1 counterexample: no permission rows at all. -/
def c1DB : DB :=
  { users := [c1User], permissions := [], items := [], participants := [],
    entries := [c1Entry] }

/-- C1 (counterexample): with no permission row, the claim says the schedule
filter restricts results to rows where the user is the creator; but the
entry `u1` created (for the shift of `u2`) is excluded by the computed
filter, which matches on the shift owner `userId`, not on `createdById`. -/
theorem list_scope_filter_counterexample :
    schedFilterMatches (getScheduleEntriesFilter c1DB c1User) c1Entry = false
  ∧ c1Entry.createdById = c1User.id
  ∧ findPermission c1DB c1User.id PermModule.schedule = none := by
  refine ⟨rfl, rfl, rfl⟩

/-- Store for the C3 counterexample: a single user whose email is not the
one the login request carries. -/
def c3DB : DB :=
  { users := [{ id := "u9", name := "Real", email := "real@example.com",
                passwordHash := "$2a$12$realhash", role := Role.USER }],
    permissions := [], items := [], participants := [], entries := [] }

/-- C3 (code evaluation at the failing input): for a login with an unknown
email, the handler selects the fixed dummy hash but never invokes
`verifyPassword` — even an oracle that accepts everything is not consulted —
while the 200ms latency floor is applied in every case. -/
theorem login_no_dummy_comparison :
    (loginPOST c3DB "ghost@example.com" "pw" (fun _ _ => true)).verifyCalled = false
  ∧ (loginPOST c3DB "ghost@example.com" "pw" (fun _ _ => true)).hashCompared = loginDummyHash
  ∧ (loginPOST c3DB "ghost@example.com" "pw" (fun _ _ => true)).response
      = LoginResponse.failure loginFailureResponse
  ∧ (∀ elapsed : Nat, loginMinResponseTime ≤ loginTotalElapsed elapsed) := by
  refine ⟨rfl, rfl, rfl, ?_⟩
  intro elapsed
  simp only [loginTotalElapsed, loginDelay, loginMinResponseTime]
  split <;> omega

/-- C4: the two failing login cases — unknown email, and known email with a
rejected password — produce the same response value: status 200 with the
generic `{error, message}` body, indistinguishable to the client. -/
theorem login_failures_indistinguishable (db1 db2 : DB) (e1 p1 e2 p2 : String)
    (hc1 hc2 : String → String → Bool) (u : User)
    (h1 : db1.users.find? (fun x => x.email == e1) = none)
    (h2 : db2.users.find? (fun x => x.email == e2) = some u)
    (h3 : hc2 p2 u.passwordHash = false) :
    (loginPOST db1 e1 p1 hc1).response = LoginResponse.failure loginFailureResponse
  ∧ (loginPOST db2 e2 p2 hc2).response = LoginResponse.failure loginFailureResponse := by
  constructor
  · simp [loginPOST, h1]
  · simp [loginPOST, h2, h3]

/-- Store with one user, for the C4 witness. -/
def c4DB : DB :=
  { users := [{ id := "u4", name := "Four", email := "four@example.com",
                passwordHash := "$2a$12$fourhash", role := Role.USER }],
    permissions := [], items := [], participants := [], entries := [] }

/-- C4 witness: concrete unknown-email and wrong-password requests. -/
theorem login_failures_indistinguishable_witness :
    (loginPOST c3DB "ghost@example.com" "pw" (fun _ _ => true)).response
        = LoginResponse.failure loginFailureResponse
  ∧ (loginPOST c4DB "four@example.com" "wrong" (fun _ _ => false)).response
        = LoginResponse.failure loginFailureResponse := by
  exact login_failures_indistinguishable c3DB c4DB "ghost@example.com" "pw"
    "four@example.com" "wrong" (fun _ _ => true) (fun _ _ => false)
    { id := "u4", name := "Four", email := "four@example.com",
      passwordHash := "$2a$12$fourhash", role := Role.USER }
    rfl rfl rfl

/-- C10: replacing the permission table by any table that agrees on every
lookup outside the `"deadlines"` module changes no calendar or schedule
access check and no list filter: every check consults only the
`"meetings"` or `"schedule"` row (for items of every type, `DEADLINE`
included — none of these functions reads the item type). -/
theorem deadlines_permissions_no_effect (db : DB) (perms2 : List UserPermission)
    (h : ∀ uid m, m ≠ PermModule.deadlines →
      findPermission db uid m = findPermission { db with permissions := perms2 } uid m)
    (u : User) (ownerId itemId : String) (lvl : Level)
    (it : CalendarItem) (e : ScheduleEntry) :
    checkCalendarPermission db u ownerId lvl
      = checkCalendarPermission { db with permissions := perms2 } u ownerId lvl
  ∧ getCalendarItemsFilter db u = getCalendarItemsFilter { db with permissions := perms2 } u
  ∧ getScheduleEntriesFilter db u
      = getScheduleEntriesFilter { db with permissions := perms2 } u
  ∧ requireCalendarItemAccess db u itemId lvl
      = requireCalendarItemAccess { db with permissions := perms2 } u itemId lvl
  ∧ calFilterMatches db (getCalendarItemsFilter db u) it
      = calFilterMatches { db with permissions := perms2 }
          (getCalendarItemsFilter { db with permissions := perms2 } u) it
  ∧ schedFilterMatches (getScheduleEntriesFilter db u) e
      = schedFilterMatches (getScheduleEntriesFilter { db with permissions := perms2 } u) e := by
  have hm : findPermission db u.id PermModule.meetings
      = findPermission { db with permissions := perms2 } u.id PermModule.meetings :=
    h u.id PermModule.meetings (by intro hc; cases hc)
  have hs : findPermission db u.id PermModule.schedule
      = findPermission { db with permissions := perms2 } u.id PermModule.schedule :=
    h u.id PermModule.schedule (by intro hc; cases hc)
  have hcal : getCalendarItemsFilter db u
      = getCalendarItemsFilter { db with permissions := perms2 } u := by
    simp only [getCalendarItemsFilter, hm]
  have hsched : getScheduleEntriesFilter db u
      = getScheduleEntriesFilter { db with permissions := perms2 } u := by
    simp only [getScheduleEntriesFilter, hs]
  have hchk : checkCalendarPermission db u ownerId lvl
      = checkCalendarPermission { db with permissions := perms2 } u ownerId lvl := by
    simp only [checkCalendarPermission, hm]
  refine ⟨hchk, hcal, hsched, ?_, ?_, ?_⟩
  · simp only [requireCalendarItemAccess, isCalendarItemParticipant]
    cases hit : db.items.find? (fun x => x.id == itemId) with
    | none => rfl
    | some item => simp only [checkCalendarPermission, hm]
  · rw [← hcal]
    cases getCalendarItemsFilter db u with
    | empty => rfl
    | orOwnerOrParticipant uid => simp only [calFilterMatches, isCalendarItemParticipant]
  · rw [← hsched]

/-- A user holding only a `"deadlines"` permission row, for the C10 witness. -/
def c10User : User :=
  { id := "d1", name := "Dee", email := "dee@example.com",
    passwordHash := "hashd", role := Role.USER }

/-- Store for the C10 witness: the single permission row is for the
`"deadlines"` module, with the most permissive levels. -/
def c10DB : DB :=
  { users := [c10User],
    permissions := [{ userId := "d1", module := PermModule.deadlines,
                      myLevel := Level.EDIT, allLevel := Level.EDIT }],
    items := [], participants := [], entries := [] }

/-- C10 witness: deleting the `"deadlines"` EDIT/EDIT row changes neither
list filter for that user. -/
theorem deadlines_permissions_no_effect_witness :
    getCalendarItemsFilter c10DB c10User
        = getCalendarItemsFilter { c10DB with permissions := [] } c10User
  ∧ getScheduleEntriesFilter c10DB c10User
        = getScheduleEntriesFilter { c10DB with permissions := [] } c10User := by
  have h : ∀ uid m, m ≠ PermModule.deadlines →
      findPermission c10DB uid m
        = findPermission { c10DB with permissions := [] } uid m := by
    intro uid m hm
    cases m with
    | deadlines => exact absurd rfl hm
    | meetings =>
        simp [findPermission, c10DB, List.find?,
          show (PermModule.deadlines == PermModule.meetings) = false from rfl]
    | schedule =>
        simp [findPermission, c10DB, List.find?,
          show (PermModule.deadlines == PermModule.schedule) = false from rfl]
  have hall := deadlines_permissions_no_effect c10DB [] h c10User "" "" Level.VIEW
    { id := "", itemType := ItemType.MEETING, title := "", description := none,
      startAt := 0, endAt := none, allDay := false, status := "DRAFT",
      location := none, createdById := "" }
    { id := "", date := 0, startTime := 0, endTime := 1, note := none,
      userId := "", createdById := "" }
  exact ⟨hall.2.1, hall.2.2.1⟩

/-- `requireAdmin` for an authenticated non-admin throws the plain
`Error("Forbidden: Admin access required")`, not a `ForbiddenError`. -/
theorem requireAdmin_nonadmin (db : DB) (cookie : Option String) (u : User)
    (h1 : getCurrentUser db cookie = some u) (h2 : u.role ≠ Role.ADMIN) :
    requireAdmin db cookie = .error (.plainError "Forbidden: Admin access required") := by
  have hb : (u.role == Role.ADMIN) = false := by
    cases hru : u.role
    · exact absurd hru h2
    · rfl
  simp [requireAdmin, h1, isAdmin, hb]

/-- `requireAdmin` succeeds for an authenticated admin. -/
theorem requireAdmin_admin (db : DB) (cookie : Option String) (u : User)
    (h1 : getCurrentUser db cookie = some u) (h2 : u.role = Role.ADMIN) :
    requireAdmin db cookie = .ok u := by
  simp [requireAdmin, h1, isAdmin, h2]

/-- C2 (code evaluation at the failing input): an authenticated non-admin
calling any mutation handler gets HTTP 500 — `requireAdmin` throws a plain
`Error`, which `createErrorResponse` maps to the generic 500, not 403 — and
the store is unchanged. -/
theorem nonadmin_mutation_returns_500 (db : DB) (cookie : Option String) (u : User)
    (h1 : getCurrentUser db cookie = some u) (h2 : u.role ≠ Role.ADMIN)
    (sbody : SchedCreateBody) (ubody : SchedUpdateBody) (cbody : CalCreateBody)
    (cupd : CalUpdateBody) (rid newId : String) :
    (schedulePOST db cookie true sbody newId).1.statusOf = 500
  ∧ (schedulePATCH db cookie true rid ubody).1.statusOf = 500
  ∧ (scheduleDELETE db cookie true rid).1.statusOf = 500
  ∧ (calendarItemsPOST db cookie true cbody newId).1.statusOf = 500
  ∧ (calendarItemPATCH db cookie true rid cupd).1.statusOf = 500
  ∧ (schedulePOST db cookie true sbody newId).2 = db
  ∧ (schedulePATCH db cookie true rid ubody).2 = db
  ∧ (scheduleDELETE db cookie true rid).2 = db
  ∧ (calendarItemsPOST db cookie true cbody newId).2 = db
  ∧ (calendarItemPATCH db cookie true rid cupd).2 = db := by
  have hra := requireAdmin_nonadmin db cookie u h1 h2
  refine ⟨?_, ?_, ?_, ?_, ?_, ?_, ?_, ?_, ?_, ?_⟩ <;>
    simp [schedulePOST, schedulePATCH, scheduleDELETE, calendarItemsPOST,
          calendarItemPATCH, hra, createErrorResponse, ApiResponse.statusOf]

/-- A non-admin user, for the C2 witness. -/
def c2User : User :=
  { id := "n1", name := "NonAdmin", email := "n1@example.com",
    passwordHash := "hashn", role := Role.USER }

/-- Store for the C2 witness. -/
def c2DB : DB :=
  { users := [c2User], permissions := [], items := [], participants := [],
    entries := [] }

/-- C2 witness: a concrete non-admin create request yields status 500. -/
theorem nonadmin_mutation_returns_500_witness :
    (schedulePOST c2DB (some "n1") true
        { date := 0, userId := "n1", startTime := 0, endTime := 60,
          note := none, createdById := none } "new1").1.statusOf = 500 :=
  (nonadmin_mutation_returns_500 c2DB (some "n1") c2User rfl (by decide)
    { date := 0, userId := "n1", startTime := 0, endTime := 60,
      note := none, createdById := none }
    { date := none, userId := none, startTime := none, endTime := none, note := none }
    { itemType := ItemType.MEETING, title := "t", description := none,
      startAt := 0, endAt := none, allDay := false, status := "DRAFT",
      location := none, participants := none, createdById := none }
    { itemType := none, title := none, description := none, startAt := none,
      endAt := none, allDay := none, status := none, location := none }
    "r1" "new1").1

/-- C5 (code evaluation at the failing input): update or delete of a missing
schedule entry id by an admin yields HTTP 500 — the route throws a plain
`Error("Schedule entry not found")`, which `createErrorResponse` maps to the
generic 500, not 404 — and the store is unchanged. -/
theorem missing_schedule_entry_returns_500 (db : DB) (cookie : Option String)
    (u : User) (h1 : getCurrentUser db cookie = some u) (h2 : u.role = Role.ADMIN)
    (rid : String) (h3 : db.entries.find? (fun e => e.id == rid) = none)
    (ubody : SchedUpdateBody) :
    (schedulePATCH db cookie true rid ubody).1
        = .failure { status := 500, error := "InternalServerError",
                     message := "An unexpected error occurred. Please try again later." }
  ∧ (schedulePATCH db cookie true rid ubody).2 = db
  ∧ (scheduleDELETE db cookie true rid).1
        = .failure { status := 500, error := "InternalServerError",
                     message := "An unexpected error occurred. Please try again later." }
  ∧ (scheduleDELETE db cookie true rid).2 = db := by
  have hra := requireAdmin_admin db cookie u h1 h2
  refine ⟨?_, ?_, ?_, ?_⟩ <;>
    simp [schedulePATCH, scheduleDELETE, hra, h3, createErrorResponse]

/-- An admin user, for concrete witnesses. -/
def cAdmin : User :=
  { id := "a1", name := "Admin", email := "admin@example.com",
    passwordHash := "hasha", role := Role.ADMIN }

/-- Store with an admin and no schedule entries, for the C5 witness. -/
def c5DB : DB :=
  { users := [cAdmin], permissions := [], items := [], participants := [],
    entries := [] }

/-- C5 witness: a concrete admin delete of a nonexistent id yields the
generic 500 response. -/
theorem missing_schedule_entry_returns_500_witness :
    (scheduleDELETE c5DB (some "a1") true "ghost").1
        = .failure { status := 500, error := "InternalServerError",
                     message := "An unexpected error occurred. Please try again later." } :=
  (missing_schedule_entry_returns_500 c5DB (some "a1") cAdmin rfl rfl "ghost" rfl
    { date := none, userId := none, startTime := none, endTime := none,
      note := none }).2.2.1

/-- C9 (amended): both list endpoints return at most 1000 rows; the schedule
list is sorted by `startTime` ascending with ties broken by the shift
user's name; the calendar items list is sorted by `startAt` ascending only
(no tie-break key exists in the query). No endpoint reads a client `limit`
parameter (the parsed query types have no such field), so an oversized
`limit` is ignored rather than rejected. -/
theorem list_endpoints_cap_and_order (db : DB) (cookie : Option String)
    (rateOk : Bool) (q : CalQuery) (dateParam : Nat) :
    (calendarItemsGET db cookie rateOk q).rows.length ≤ 1000
  ∧ ((calendarItemsGET db cookie rateOk q).rows).Pairwise
      (fun a b => a.startAt ≤ b.startAt)
  ∧ (scheduleGET db cookie rateOk dateParam).rows.length ≤ 1000
  ∧ ((scheduleGET db cookie rateOk dateParam).rows).Pairwise
      (fun a b => a.startTime < b.startTime
        ∨ (a.startTime = b.startTime ∧ joinedUserName db a ≤ joinedUserName db b)) := by
  have calFact : ∀ l : List CalendarItem,
      ((sortLe calLe l).take 1000).length ≤ 1000
      ∧ ((sortLe calLe l).take 1000).Pairwise (fun a b => a.startAt ≤ b.startAt) := by
    intro l
    constructor
    · simp [List.length_take]
    · have hs := pairwise_sortLe calLe calLe_total calLe_trans l
      have ht := List.Pairwise.sublist (List.take_sublist 1000 (sortLe calLe l)) hs
      exact ht.imp (fun h => by simpa [calLe, decide_eq_true_eq] using h)
  have schedFact : ∀ l : List ScheduleEntry,
      ((sortLe (schedLe db) l).take 1000).length ≤ 1000
      ∧ ((sortLe (schedLe db) l).take 1000).Pairwise
          (fun a b => a.startTime < b.startTime
            ∨ (a.startTime = b.startTime ∧ joinedUserName db a ≤ joinedUserName db b)) := by
    intro l
    constructor
    · simp [List.length_take]
    · have hs := pairwise_sortLe (schedLe db) (schedLe_total db) (schedLe_trans db) l
      have ht := List.Pairwise.sublist (List.take_sublist 1000 (sortLe (schedLe db) l)) hs
      refine ht.imp (fun h => ?_)
      simpa [schedLe, Bool.or_eq_true, Bool.and_eq_true, decide_eq_true_eq] using h
  by_cases hr : rateOk
  · cases hauth : requireAuth db cookie with
    | error err =>
        simp [calendarItemsGET, scheduleGET, hr, hauth, ApiResponse.rows]
    | ok user =>
        refine ⟨?_, ?_, ?_, ?_⟩ <;>
          simp only [calendarItemsGET, scheduleGET, hr, hauth, Bool.not_true,
            Bool.false_eq_true, if_false, ApiResponse.rows]
        · exact (calFact _).1
        · exact (calFact _).2
        · exact (schedFact _).1
        · exact (schedFact _).2
  · have hr0 : rateOk = false := by simpa using hr
    simp [calendarItemsGET, scheduleGET, hr0, ApiResponse.rows]

/-- Two calendar items with the same `startAt`, stored with the
lexicographically larger title first, for the C9 counterexample. -/
def c9ItemB : CalendarItem :=
  { id := "i1", itemType := ItemType.MEETING, title := "bbb", description := none,
    startAt := 100, endAt := none, allDay := false, status := "DRAFT",
    location := none, createdById := "a1" }

/-- The tying item with the smaller title. -/
def c9ItemA : CalendarItem :=
  { id := "i2", itemType := ItemType.MEETING, title := "aaa", description := none,
    startAt := 100, endAt := none, allDay := false, status := "DRAFT",
    location := none, createdById := "a1" }

/-- Store for the C9 counterexample: the requester has an unrestricted
`"meetings"` scope and the two tying items are stored larger-title first. -/
def c9DB : DB :=
  { users := [cAdmin],
    permissions := [{ userId := "a1", module := PermModule.meetings,
                      myLevel := Level.VIEW, allLevel := Level.VIEW }],
    items := [c9ItemB, c9ItemA], participants := [], entries := [] }

/-- The empty calendar items query. -/
def c9Query : CalQuery :=
  { fromTs := none, toTs := none, itemType := none, status := none, search := none }

/-- C9 (counterexample): the calendar items list returns the two items tying
on `startAt` in stored order, `"bbb"` before `"aaa"` — the tie is not broken
by name, so the claimed deterministic (start, name) ordering is false. -/
theorem list_endpoints_order_counterexample :
    calendarItemsGET c9DB (some "a1") true c9Query
        = .success 200 [c9ItemB, c9ItemA]
  ∧ c9ItemB.startAt = c9ItemA.startAt
  ∧ c9ItemA.title < c9ItemB.title := by
  refine ⟨rfl, rfl, ?_⟩
  rw [String.lt_iff_toList_lt]
  decide

/-- C7: on create, the stored `createdById` is the authenticated user's id
whatever the payload carries (including an explicit foreign `createdById`);
on update of either resource, `createdById` is unchanged — it is not among
the writable fields. -/
theorem created_by_forced_and_immutable (db : DB) (cookie : Option String)
    (u : User) (hadmin : requireAdmin db cookie = .ok u)
    (sbody : SchedCreateBody) (cbody : CalCreateBody) (ubody : SchedUpdateBody)
    (cupd : CalUpdateBody) (newId rid : String) :
    (∀ s e db2, schedulePOST db cookie true sbody newId = (.success s e, db2) →
        e.createdById = u.id)
  ∧ (∀ s it db2, calendarItemsPOST db cookie true cbody newId = (.success s it, db2) →
        it.createdById = u.id)
  ∧ (∀ ex, db.entries.find? (fun x => x.id == rid) = some ex →
      ∀ s e db2, schedulePATCH db cookie true rid ubody = (.success s e, db2) →
        e.createdById = ex.createdById)
  ∧ (∀ ex, db.items.find? (fun x => x.id == rid) = some ex →
      ∀ s it db2, calendarItemPATCH db cookie true rid cupd = (.success s it, db2) →
        it.createdById = ex.createdById) := by
  refine ⟨?_, ?_, ?_, ?_⟩
  · intro s e db2 h
    cases hsch : CreateScheduleEntrySchema sbody with
    | none => simp [schedulePOST, hadmin, hsch] at h
    | some d =>
        cases hfind : db.entries.find? (fun x =>
            x.userId == d.userId && decide (normalizeDay d.date ≤ x.date)
              && decide (x.date < normalizeDay d.date + dayMs)) with
        | some e0 => simp [schedulePOST, hadmin, hsch, hfind] at h
        | none =>
            simp [schedulePOST, hadmin, hsch, hfind] at h
            rw [← h.1.2]
  · intro s it db2 h
    simp [calendarItemsPOST, hadmin, CreateCalendarItemSchema] at h
    rw [← h.1.2]
  · intro ex hfind s e db2 h
    cases hsch : UpdateScheduleEntrySchema ubody with
    | none => simp [schedulePATCH, hadmin, hfind, hsch] at h
    | some d =>
        simp [schedulePATCH, hadmin, hfind, hsch] at h
        repeat' split at h
        all_goals try simp_all
        all_goals rw [← h.1.2]
  · intro ex hfind s it db2 h
    simp [calendarItemPATCH, hadmin, hfind] at h
    rw [← h.1.2]

/-- An admin-only store for the C7 witness. -/
def c7DB : DB :=
  { users := [cAdmin], permissions := [], items := [], participants := [],
    entries := [] }

/-- A create payload that tries to smuggle a foreign `createdById`. -/
def c7SBody : SchedCreateBody :=
  { date := 0, userId := "victim", startTime := 60, endTime := 120,
    note := none, createdById := some "evil" }

/-- The entry the C7 witness request actually stores. -/
def c7Entry : ScheduleEntry :=
  { id := "n1", date := 0, startTime := 60, endTime := 120, note := none,
    userId := "victim", createdById := "a1" }

/-- C7 witness: the admin-created entry carries the admin's id, not the
smuggled `"evil"`. -/
theorem created_by_forced_and_immutable_witness :
    c7Entry.createdById = "a1"
  ∧ (schedulePOST c7DB (some "a1") true c7SBody "n1").1 = .success 201 c7Entry :=
  ⟨(created_by_forced_and_immutable c7DB (some "a1") cAdmin rfl c7SBody
      { itemType := ItemType.MEETING, title := "t", description := none,
        startAt := 0, endAt := none, allDay := false, status := "DRAFT",
        location := none, participants := none, createdById := some "evil" }
      { date := none, userId := none, startTime := none, endTime := none, note := none }
      { itemType := none, title := none, description := none, startAt := none,
        endAt := none, allDay := none, status := none, location := none }
      "n1" "r1").1
    201 c7Entry { c7DB with entries := [c7Entry] } rfl,
   rfl⟩

/-- Inversion of the create schema: when it accepts, the validated data is
the payload minus `createdById`, the times are ordered, and the date is
day-aligned. -/
theorem CreateScheduleEntrySchema_some (b : SchedCreateBody) (d : SchedCreateData)
    (h : CreateScheduleEntrySchema b = some d) :
    d = { date := b.date, userId := b.userId, startTime := b.startTime,
          endTime := b.endTime, note := b.note }
  ∧ b.startTime < b.endTime ∧ b.date % dayMs = 0 := by
  unfold CreateScheduleEntrySchema at h
  split at h
  · next hcond =>
      simp only [Bool.and_eq_true, decide_eq_true_eq, beq_iff_eq] at hcond
      injection h with h3
      exact ⟨h3.symm, hcond.1, hcond.2⟩
  · exact absurd h (by simp)

/-- Inversion of the update schema: when it accepts, it returns the payload
itself, and a provided date is day-aligned. -/
theorem UpdateScheduleEntrySchema_some (b d : SchedUpdateBody)
    (h : UpdateScheduleEntrySchema b = some d) :
    d = b ∧ (∀ nd, b.date = some nd → nd % dayMs = 0) := by
  unfold UpdateScheduleEntrySchema at h
  split at h
  · next hcond =>
      injection h with h3
      refine ⟨h3.symm, ?_⟩
      intro nd hnd
      rw [hnd] at hcond
      simpa using hcond
  · exact absurd h (by simp)

/-- C8: a schedule create whose payload has `endTime <= startTime` is
rejected by the schema with a 400 validation error; an update whose merged
values have `endTime <= startTime` fails with a 400 and changes nothing;
and both handlers preserve the invariant that every stored entry has
`startTime < endTime`. -/
theorem schedule_time_validation (db : DB) (cookie : Option String) (u : User)
    (hadmin : requireAdmin db cookie = .ok u)
    (sbody : SchedCreateBody) (ubody : SchedUpdateBody) (newId rid : String) :
    (sbody.endTime ≤ sbody.startTime →
        schedulePOST db cookie true sbody newId
          = (.failure (createErrorResponse (ValidationError "Invalid request body")), db))
  ∧ (∀ ex, db.entries.find? (fun x => x.id == rid) = some ex →
      UpdateScheduleEntrySchema ubody = some ubody →
      ubody.endTime.getD ex.endTime ≤ ubody.startTime.getD ex.startTime →
      (schedulePATCH db cookie true rid ubody).1.statusOf = 400
        ∧ (schedulePATCH db cookie true rid ubody).2 = db)
  ∧ (entriesTimesOk db.entries →
        entriesTimesOk (schedulePOST db cookie true sbody newId).2.entries)
  ∧ (entriesTimesOk db.entries →
        entriesTimesOk (schedulePATCH db cookie true rid ubody).2.entries) := by
  refine ⟨?_, ?_, ?_, ?_⟩
  · intro hle
    have hdec : decide (sbody.startTime < sbody.endTime) = false :=
      decide_eq_false (by omega)
    have hsch : CreateScheduleEntrySchema sbody = none := by
      unfold CreateScheduleEntrySchema
      rw [hdec]
      simp
    simp [schedulePOST, hadmin, hsch]
  · intro ex hfind hsch hle
    obtain ⟨hd, _⟩ := UpdateScheduleEntrySchema_some ubody ubody hsch
    refine ⟨?_, ?_⟩ <;>
    · simp [schedulePATCH, hadmin, hfind, hsch]
      repeat' split
      all_goals simp [ApiResponse.statusOf, createErrorResponse, ValidationError]
  · intro hok
    cases hsch : CreateScheduleEntrySchema sbody with
    | none => simpa [schedulePOST, hadmin, hsch] using hok
    | some d =>
        obtain ⟨hdval, hlt, _⟩ := CreateScheduleEntrySchema_some sbody d hsch
        cases hfind : db.entries.find? (fun x =>
            x.userId == d.userId && decide (normalizeDay d.date ≤ x.date)
              && decide (x.date < normalizeDay d.date + dayMs)) with
        | some e0 => simpa [schedulePOST, hadmin, hsch, hfind] using hok
        | none =>
            simp only [schedulePOST, hadmin, hsch, hfind]
            simp only [Bool.not_true, if_false, entriesTimesOk]
            intro e he
            rcases List.mem_append.mp he with he1 | he1
            · exact hok e he1
            · rcases List.mem_singleton.mp he1 with rfl
              subst hdval
              simpa using hlt
  · intro hok
    cases hsch : UpdateScheduleEntrySchema ubody with
    | none =>
        cases hfind : db.entries.find? (fun x => x.id == rid) with
        | none => simpa [schedulePATCH, hadmin, hfind] using hok
        | some ex => simpa [schedulePATCH, hadmin, hfind, hsch] using hok
    | some d =>
        cases hfind : db.entries.find? (fun x => x.id == rid) with
        | none => simpa [schedulePATCH, hadmin, hfind] using hok
        | some ex =>
            simp only [schedulePATCH, hadmin, hfind, hsch]
            simp only [Bool.not_true, if_false]
            by_cases hT : d.endTime.getD ex.endTime ≤ d.startTime.getD ex.startTime
            · repeat' split
              all_goals exact hok
            · repeat' split
              all_goals try exact hok
              all_goals
                (simp only [entriesTimesOk]
                 intro e he
                 rcases List.mem_map.mp he with ⟨a, ha, hae⟩
                 by_cases hic : (a.id == rid) = true
                 · rw [← hae]
                   simp only [hic, if_true]
                   exact Nat.lt_of_not_le hT
                 · have hic0 : (a.id == rid) = false := by simpa using hic
                   rw [← hae]
                   simp only [hic0, Bool.false_eq_true, if_false]
                   exact hok a ha)

/-- `normalizeDay` is idempotent. -/
theorem normalizeDay_idem (t : Nat) : normalizeDay (normalizeDay t) = normalizeDay t :=
  normalizeDay_aligned _ (normalizeDay_mod t)

/-- C6: the `(date, userId)` day-pair is unique. A create that collides with
an existing entry of the same user on the same day fails with the duplicate
error and changes nothing; create (with a fresh id) and update preserve
well-formedness (distinct ids, at most one entry per user per day); a
conflicting update fails the same way; and the update recheck excludes the
row being updated, so re-submitting a row's own `(date, userId)` never trips
the duplicate error. -/
theorem schedule_pair_uniqueness (db : DB) (cookie : Option String) (u : User)
    (hadmin : requireAdmin db cookie = .ok u)
    (sbody : SchedCreateBody) (ubody : SchedUpdateBody) (newId rid : String)
    (hWF : entriesWF db.entries) :
    (∀ d, CreateScheduleEntrySchema sbody = some d →
      (∃ e ∈ db.entries, e.userId = d.userId
          ∧ normalizeDay e.date = normalizeDay d.date) →
      schedulePOST db cookie true sbody newId
        = (.failure (createErrorResponse
            (ValidationError "Schedule entry already exists for this user on this date")), db))
  ∧ (newId ∉ db.entries.map (fun e => e.id) →
      entriesWF (schedulePOST db cookie true sbody newId).2.entries)
  ∧ (∀ ex, db.entries.find? (fun x => x.id == rid) = some ex →
      UpdateScheduleEntrySchema ubody = some ubody →
      (ubody.date.isSome || ubody.userId.isSome) = true →
      (∃ e ∈ db.entries, e.id ≠ rid ∧ e.userId = ubody.userId.getD ex.userId
          ∧ normalizeDay e.date = normalizeDay (ubody.date.getD ex.date)) →
      schedulePATCH db cookie true rid ubody
        = (.failure (createErrorResponse
            (ValidationError "Schedule entry already exists for this user on this date")), db))
  ∧ entriesWF (schedulePATCH db cookie true rid ubody).2.entries
  ∧ (∀ ex, db.entries.find? (fun x => x.id == rid) = some ex →
      UpdateScheduleEntrySchema ubody = some ubody →
      normalizeDay (ubody.date.getD ex.date) = normalizeDay ex.date →
      ubody.userId.getD ex.userId = ex.userId →
      (schedulePATCH db cookie true rid ubody).1
        ≠ .failure (createErrorResponse
            (ValidationError "Schedule entry already exists for this user on this date"))) := by
  refine ⟨?_, ?_, ?_, ?_, ?_⟩
  · -- (a) conflicting create fails
    intro d hsch ⟨e, he, heu, hed⟩
    obtain ⟨hdval, _, halign⟩ := CreateScheduleEntrySchema_some sbody d hsch
    have halignd : d.date % dayMs = 0 := by rw [hdval]; exact halign
    cases hfind : db.entries.find? (fun x =>
        x.userId == d.userId && decide (normalizeDay d.date ≤ x.date)
          && decide (x.date < normalizeDay d.date + dayMs)) with
    | some e0 => simp [schedulePOST, hadmin, hsch, hfind]
    | none =>
        exfalso
        have hnone := List.find?_eq_none.mp hfind e he
        apply hnone
        have hw : normalizeDay d.date ≤ e.date ∧ e.date < normalizeDay d.date + dayMs := by
          refine (window_iff e.date (normalizeDay d.date) (normalizeDay_mod d.date)).mpr ?_
          exact hed
        simp [heu, hw.1, hw.2]
  · -- (b) create preserves well-formedness
    intro hfresh
    cases hsch : CreateScheduleEntrySchema sbody with
    | none => simpa [schedulePOST, hadmin, hsch] using hWF
    | some d =>
        cases hfind : db.entries.find? (fun x =>
            x.userId == d.userId && decide (normalizeDay d.date ≤ x.date)
              && decide (x.date < normalizeDay d.date + dayMs)) with
        | some e0 => simpa [schedulePOST, hadmin, hsch, hfind] using hWF
        | none =>
            have hnone := List.find?_eq_none.mp hfind
            simp only [schedulePOST, hadmin, hsch, hfind, Bool.not_true,
              Bool.false_eq_true, if_false]
            constructor
            · -- ids stay distinct
              simp only [entryIdsNodup, List.map_append, List.map_cons, List.map_nil]
              rw [List.nodup_append]
              refine ⟨hWF.1, List.nodup_singleton _, ?_⟩
              intro a ha hb
              rcases List.mem_singleton.mp hb with rfl
              exact hfresh ha
            · -- uniqueness
              intro e1 he1 e2 he2 hu hd
              rcases List.mem_append.mp he1 with he1 | he1 <;>
                rcases List.mem_append.mp he2 with he2 | he2
              · exact hWF.2 e1 he1 e2 he2 hu hd
              · rcases List.mem_singleton.mp he2 with rfl
                exfalso
                apply hnone e1 he1
                have hw : normalizeDay d.date ≤ e1.date
                    ∧ e1.date < normalizeDay d.date + dayMs := by
                  refine (window_iff e1.date (normalizeDay d.date)
                    (normalizeDay_mod d.date)).mpr ?_
                  simpa [normalizeDay_idem] using hd
                simp only [Bool.and_eq_true, beq_iff_eq, decide_eq_true_eq]
                exact ⟨⟨by simpa using hu, hw.1⟩, hw.2⟩
              · rcases List.mem_singleton.mp he1 with rfl
                exfalso
                apply hnone e2 he2
                have hw : normalizeDay d.date ≤ e2.date
                    ∧ e2.date < normalizeDay d.date + dayMs := by
                  refine (window_iff e2.date (normalizeDay d.date)
                    (normalizeDay_mod d.date)).mpr ?_
                  simpa [normalizeDay_idem] using hd.symm
                simp only [Bool.and_eq_true, beq_iff_eq, decide_eq_true_eq]
                exact ⟨⟨by simpa using hu.symm, hw.1⟩, hw.2⟩
              · rcases List.mem_singleton.mp he1 with rfl
                rcases List.mem_singleton.mp he2 with rfl
                rfl
  · -- (c) conflicting update fails
    intro ex hfind hsch hdu ⟨e, he, hene, heu, hed⟩
    obtain ⟨_, halign⟩ := UpdateScheduleEntrySchema_some ubody ubody hsch
    have halnew : normalizeDay (ubody.date.getD ex.date) % dayMs = 0 :=
      normalizeDay_mod _
    cases hconf : db.entries.find? (fun x =>
        x.id != rid && x.userId == ubody.userId.getD ex.userId
          && decide (normalizeDay (ubody.date.getD ex.date) ≤ x.date)
          && decide (x.date < normalizeDay (ubody.date.getD ex.date) + dayMs)) with
    | some e0 => simp [schedulePATCH, hadmin, hfind, hsch, hdu, hconf]
    | none =>
        exfalso
        apply List.find?_eq_none.mp hconf e he
        have hw : normalizeDay (ubody.date.getD ex.date) ≤ e.date
            ∧ e.date < normalizeDay (ubody.date.getD ex.date) + dayMs := by
          refine (window_iff e.date _ halnew).mpr ?_
          simpa [normalizeDay_idem] using hed
        simp only [Bool.and_eq_true, bne_iff_ne, beq_iff_eq, decide_eq_true_eq]
        exact ⟨⟨⟨hene, heu⟩, hw.1⟩, hw.2⟩
  · -- (d) update preserves well-formedness
    cases hsch : UpdateScheduleEntrySchema ubody with
    | none =>
        cases hfind : db.entries.find? (fun x => x.id == rid) with
        | none => simpa [schedulePATCH, hadmin, hfind] using hWF
        | some ex => simpa [schedulePATCH, hadmin, hfind, hsch] using hWF
    | some d =>
        cases hfind : db.entries.find? (fun x => x.id == rid) with
        | none => simpa [schedulePATCH, hadmin, hfind] using hWF
        | some ex =>
            obtain ⟨hdub, halign⟩ := UpdateScheduleEntrySchema_some ubody d
              (by rw [hsch])
            have hexl : ex ∈ db.entries := List.mem_of_find?_eq_some hfind
            have hexid : ex.id = rid := by
              have := List.find?_some hfind
              simpa using this
            -- the updated row always lands on the day window the check used
            have hnormdate : ∀ nd, d.date = some nd →
                normalizeDay nd = normalizeDay (d.date.getD ex.date) := by
              intro nd hnd
              rw [hnd]
              rfl
            simp only [schedulePATCH, hadmin, hfind, hsch, Bool.not_true,
              Bool.false_eq_true, if_false]
            split
            · exact hWF
            · split
              · exact hWF
              · next hconfb hlt =>
                  -- success branch: the mapped store stays well-formed
                  constructor
                  · simp only [entryIdsNodup, List.map_map]
                    have hmap : db.entries.map
                        ((fun e => e.id) ∘ fun e =>
                          if (e.id == rid) = true then
                            { id := ex.id, date := d.date.getD ex.date,
                              startTime := d.startTime.getD ex.startTime,
                              endTime := d.endTime.getD ex.endTime,
                              note := match d.note with
                                      | some n => some n
                                      | none => ex.note,
                              userId := d.userId.getD ex.userId,
                              createdById := ex.createdById }
                          else e)
                        = db.entries.map (fun e => e.id) := by
                      refine List.map_congr_left ?_
                      intro a _
                      by_cases hic : (a.id == rid) = true
                      · simp only [Function.comp, hic, if_true]
                        rw [hexid]
                        exact (beq_iff_eq.mp hic).symm
                      · simp only [Function.comp, hic]
                        simp
                    rw [hmap]
                    exact hWF.1
                  · -- uniqueness of the mapped store
                    have hkey : ∀ x ∈ db.entries, x.id ≠ rid →
                        x.userId = d.userId.getD ex.userId →
                        normalizeDay x.date = normalizeDay (d.date.getD ex.date) →
                        False := by
                      intro x hx hxid hxu hxd
                      by_cases hdu : (d.date.isSome || d.userId.isSome) = true
                      · rw [if_pos hdu] at hconfb
                        apply List.find?_eq_none.mp hconfb x hx
                        have hw := (window_iff x.date
                            (normalizeDay (d.date.getD ex.date))
                            (normalizeDay_mod _)).mpr
                          (by simpa [normalizeDay_idem] using hxd)
                        simp only [Bool.and_eq_true, bne_iff_ne, beq_iff_eq,
                          decide_eq_true_eq]
                        exact ⟨⟨⟨hxid, hxu⟩, hw.1⟩, hw.2⟩
                      · have hdd : d.date = none := by
                          cases hdd : d.date with
                          | none => rfl
                          | some nd => rw [hdd] at hdu; simp at hdu
                        have hduid : d.userId = none := by
                          cases hduid : d.userId with
                          | none => rfl
                          | some nu => rw [hdd, hduid] at hdu; simp at hdu
                        rw [hdd, Option.getD_none] at hxd
                        rw [hduid, Option.getD_none] at hxu
                        have hxe : x = ex := hWF.2 x hx ex hexl hxu hxd
                        exact hxid (by rw [hxe, hexid])
                    intro e1 he1 e2 he2 hu hd2
                    rcases List.mem_map.mp he1 with ⟨a1, ha1, hae1⟩
                    rcases List.mem_map.mp he2 with ⟨a2, ha2, hae2⟩
                    subst hae1
                    subst hae2
                    by_cases h1 : (a1.id == rid) = true
                    · by_cases h2 : (a2.id == rid) = true
                      · rw [if_pos h1, if_pos h2]
                      · rw [if_pos h1, if_neg h2] at hu hd2
                        exact ((hkey a2 ha2 (by simpa using h2) hu.symm hd2.symm).elim)
                    · by_cases h2 : (a2.id == rid) = true
                      · rw [if_neg h1, if_pos h2] at hu hd2
                        exact ((hkey a1 ha1 (by simpa using h1) hu hd2).elim)
                      · rw [if_neg h1, if_neg h2] at hu hd2 ⊢
                        exact hWF.2 a1 ha1 a2 ha2 hu hd2
  · -- (e) the recheck excludes the row being updated
    intro ex hfind hsch hdsame husame
    have hexl : ex ∈ db.entries := List.mem_of_find?_eq_some hfind
    have hexid : ex.id = rid := by simpa using List.find?_some hfind
    have hconf : db.entries.find? (fun x =>
        x.id != rid && x.userId == ubody.userId.getD ex.userId
          && decide (normalizeDay (ubody.date.getD ex.date) ≤ x.date)
          && decide (x.date < normalizeDay (ubody.date.getD ex.date) + dayMs))
        = none := by
      rw [List.find?_eq_none]
      intro x hx
      simp only [Bool.and_eq_true, bne_iff_ne, beq_iff_eq, decide_eq_true_eq]
      rintro ⟨⟨⟨hxid, hxu⟩, hw1⟩, hw2⟩
      have hxday : normalizeDay x.date = normalizeDay (ubody.date.getD ex.date) :=
        (window_iff x.date _ (normalizeDay_mod _)).mp ⟨hw1, hw2⟩
      have hxe : x = ex :=
        hWF.2 x hx ex hexl (by rw [hxu, husame]) (hxday.trans hdsame)
      exact hxid (by rw [hxe, hexid])
    by_cases hT : ubody.endTime.getD ex.endTime ≤ ubody.startTime.getD ex.startTime
    all_goals
      (by_cases hdu : (ubody.date.isSome || ubody.userId.isSome) = true
       all_goals
         (simp only [schedulePATCH, hadmin, hfind, hsch, Bool.not_true,
            Bool.false_eq_true, if_false, hdu, if_true, hconf]
          first
            | (rw [if_pos hT]
               simp [createErrorResponse, ValidationError])
            | (rw [if_neg hT]
               simp [createErrorResponse, ValidationError])))

/-- The existing shift of user `"v"` on day 0, for the C6 witness. -/
def c6Entry : ScheduleEntry :=
  { id := "s1", date := 0, startTime := 0, endTime := 60, note := none,
    userId := "v", createdById := "a1" }

/-- Store with an admin and one schedule entry, for the C6 and C8 witnesses. -/
def c6DB : DB :=
  { users := [cAdmin], permissions := [], items := [], participants := [],
    entries := [c6Entry] }

/-- A create payload colliding with `c6Entry` on `(day 0, "v")`. -/
def c6SBody : SchedCreateBody :=
  { date := 0, userId := "v", startTime := 30, endTime := 90, note := none,
    createdById := none }

/-- The empty update payload used to instantiate the C6 theorem. -/
def c6UBody : SchedUpdateBody :=
  { date := none, userId := none, startTime := none, endTime := none, note := none }

/-- C6 witness: the concrete colliding create fails with the duplicate error
and leaves the store unchanged. -/
theorem schedule_pair_uniqueness_witness :
    schedulePOST c6DB (some "a1") true c6SBody "n2"
      = (.failure (createErrorResponse
          (ValidationError "Schedule entry already exists for this user on this date")),
         c6DB) :=
  (schedule_pair_uniqueness c6DB (some "a1") cAdmin rfl c6SBody c6UBody "n2" "r1"
      (by constructor
          · unfold entryIdsNodup
            decide
          · intro e1 he1 e2 he2 hu hd
            rcases List.mem_singleton.mp he1 with rfl
            rcases List.mem_singleton.mp he2 with rfl
            rfl)).1
    { date := 0, userId := "v", startTime := 30, endTime := 90, note := none }
    rfl
    ⟨c6Entry, by decide, rfl, rfl⟩

/-- A create payload whose `endTime` is not after its `startTime`. -/
def c8SBody : SchedCreateBody :=
  { date := 0, userId := "v", startTime := 120, endTime := 60, note := none,
    createdById := none }

/-- C8 witness: the concrete ill-ordered create fails with a 400 validation
error and leaves the store unchanged. -/
theorem schedule_time_validation_witness :
    schedulePOST c6DB (some "a1") true c8SBody "n3"
      = (.failure (createErrorResponse (ValidationError "Invalid request body")), c6DB) :=
  (schedule_time_validation c6DB (some "a1") cAdmin rfl c8SBody
      { date := none, userId := none, startTime := none, endTime := none, note := none }
      "n3" "r1").1 (by decide)

end CalendarApp
